import Mathlib

/-! Verification of the client-side resilience layer of alerta-ilo-web:
shallow Lean embeddings of the logic of src/services/OfflineQueueService.ts,
src/services/BackgroundSyncService.ts and src/services/CacheService.ts,
followed by theorems settling the claims of the specification. -/

namespace AlertaIlo

/-- JSON values as produced by JSON.stringify and consumed by JSON.parse
(modelled at the value-tree level; the numbers occurring in the queue
records are non-negative integers, so numerals are Nat here). -/
inductive Jval where
  | null
  | jbool (b : Bool)
  | num (n : Nat)
  | str (s : String)
  | arr (xs : List Jval)
  | obj (fields : List (String × Jval))

/-- The operation kinds of QueuedOperation.type
(OfflineQueueService.ts line 6). -/
inductive OpType where
  | CREATE_REPORT
  | UPDATE_PROFILE
  | DELETE_REPORT
deriving DecidableEq

/-- QueuedOperation (OfflineQueueService.ts lines 4-10); the data field is
an opaque JSON payload never inspected by the queue logic. -/
structure QueuedOperation where
  id : String
  type : OpType
  data : Jval
  timestamp : Nat
  retryCount : Nat

/-- OfflineStatus (OfflineQueueService.ts lines 12-16).  Note its three
fields: it carries no list of errors. -/
structure OfflineStatus where
  isOnline : Bool
  lastOnlineTime : Option Nat
  queuedOperations : Nat

namespace OfflineQueueService

/-- MAX_RETRY_COUNT (OfflineQueueService.ts line 24). -/
def MAX_RETRY_COUNT : Nat := 3

/-- this.queue.filter(op => op.id !== operationId), the removal expression
used at lines 163, 176 and 277. -/
def removeById (operationId : String) (queue : List QueuedOperation) :
    List QueuedOperation :=
  queue.filter (fun op => op.id != operationId)

/-- Lines 170-172: this.queue.find(op => op.id === operation.id) followed by
queuedOperation.retryCount++.  Returns the updated queue together with the
incremented counter value, or none when no entry with the id is present. -/
def incFirst (operationId : String) :
    List QueuedOperation → Option (List QueuedOperation × Nat)
  | [] => none
  | op :: rest =>
    if op.id = operationId then
      some (({ op with retryCount := op.retryCount + 1 }) :: rest, op.retryCount + 1)
    else
      match incFirst operationId rest with
      | none => none
      | some (r, c) => some (op :: r, c)

/-- One iteration of the for-loop of processQueue (lines 158-181), acting on
the current queue for one snapshot element.  `fails operation` tells whether
executeOperation throws for this operation: on success the operation is
filtered out of the queue (line 163); on failure the first queue entry with
its id gets retryCount incremented (line 172) and, when the new counter has
reached MAX_RETRY_COUNT, every entry with that id is removed (line 176). -/
def processOne (fails : QueuedOperation → Bool) (queue : List QueuedOperation)
    (operation : QueuedOperation) : List QueuedOperation :=
  if fails operation then
    match incFirst operation.id queue with
    | none => queue
    | some (q2, newCount) =>
      if MAX_RETRY_COUNT ≤ newCount then removeById operation.id q2 else q2
  else
    removeById operation.id queue

/-- processQueue (lines 148-186): early return when offline, already
processing, or empty (line 149); otherwise the loop runs over the snapshot
[...this.queue] taken at entry (line 156) while mutating the live queue. -/
def processQueue (isOnline processingQueue : Bool)
    (fails : QueuedOperation → Bool) (queue : List QueuedOperation) :
    List QueuedOperation :=
  if !isOnline || processingQueue || queue.isEmpty then queue
  else queue.foldl (processOne fails) queue

/-- getStatus (lines 218-224): lastOnlineTime is Date.now() when online and
null when offline; nothing else feeds it. -/
def getStatus (isOnline : Bool) (now : Nat) (queue : List QueuedOperation) :
    OfflineStatus :=
  { isOnline := isOnline
    lastOnlineTime := if isOnline then some now else none
    queuedOperations := queue.length }

/-- removeFromQueue (lines 275-286): filters the id out and reports whether
the queue shrank. -/
def removeFromQueue (operationId : String) (queue : List QueuedOperation) :
    List QueuedOperation × Bool :=
  let q2 := removeById operationId queue
  (q2, decide (q2.length < queue.length))

/-- The mutable fields of the OfflineQueueService class that the status
depends on (lines 20-21).  The class stores no last-online timestamp. -/
structure QueueState where
  isOnline : Bool
  queue : List QueuedOperation

/-- Initial state (lines 20-30): empty queue, isOnline = navigator.onLine. -/
def initState (navigatorOnLine : Bool) : QueueState :=
  { isOnline := navigatorOnLine, queue := [] }

/-- The events that mutate the service state: the online/offline handlers of
initializeOfflineDetection (lines 44-55), addToQueue (lines 122-143, which
drains immediately when online), removeFromQueue, clearQueue (lines 258-263)
and forceProcessQueue (lines 291-295).  Drain events carry the behaviour of
executeOperation for this drain. -/
inductive QEvent where
  | goOnline (fails : QueuedOperation → Bool)
  | goOffline
  | addToQueue (op : QueuedOperation) (fails : QueuedOperation → Bool)
  | removeOp (operationId : String)
  | clearQueue
  | forceProcess (fails : QueuedOperation → Bool)

/-- State transition of the service for one event. -/
def stepQueue (st : QueueState) (e : QEvent) : QueueState :=
  match e with
  | .goOnline fails =>
      { isOnline := true, queue := processQueue true false fails st.queue }
  | .goOffline => { st with isOnline := false }
  | .addToQueue op fails =>
      let q := st.queue ++ [op]
      { st with queue := if st.isOnline then processQueue true false fails q else q }
  | .removeOp operationId => { st with queue := removeById operationId st.queue }
  | .clearQueue => { st with queue := [] }
  | .forceProcess fails =>
      { st with queue := if st.isOnline then processQueue true false fails st.queue else st.queue }

/-- Running the service from its initial state over a history of events. -/
def runQueue (navigatorOnLine : Bool) (events : List QEvent) : QueueState :=
  events.foldl stepQueue (initState navigatorOnLine)

def strCREATE : String := "CREATE_REPORT"
def strUPDATE : String := "UPDATE_PROFILE"
def strDELETE : String := "DELETE_REPORT"

def opTypeToString : OpType → String
  | .CREATE_REPORT => strCREATE
  | .UPDATE_PROFILE => strUPDATE
  | .DELETE_REPORT => strDELETE

def opTypeFromString (s : String) : Option OpType :=
  if s = strCREATE then some .CREATE_REPORT
  else if s = strUPDATE then some .UPDATE_PROFILE
  else if s = strDELETE then some .DELETE_REPORT
  else none

def fieldId : String := "id"
def fieldType : String := "type"
def fieldData : String := "data"
def fieldTimestamp : String := "timestamp"
def fieldRetryCount : String := "retryCount"

/-- JSON.stringify of one QueuedOperation record (the serialization done by
saveQueueToStorage, line 113), at the JSON-tree level. -/
def opToJson (op : QueuedOperation) : Jval :=
  .obj [(fieldId, .str op.id),
        (fieldType, .str (opTypeToString op.type)),
        (fieldData, op.data),
        (fieldTimestamp, .num op.timestamp),
        (fieldRetryCount, .num op.retryCount)]

/-- Reading a QueuedOperation record back from its parsed JSON tree (the
rehydration of loadQueueFromStorage, line 99).  The source assigns the
parsed value without validation; this reader interprets exactly the trees
that saveQueueToStorage produces. -/
def opFromJson : Jval → Option QueuedOperation
  | .obj ((k1, .str i) :: (k2, .str t) :: (k3, d) ::
          (k4, .num ts) :: (k5, .num rc) :: []) =>
    if k1 = fieldId ∧ k2 = fieldType ∧ k3 = fieldData ∧
        k4 = fieldTimestamp ∧ k5 = fieldRetryCount then
      match opTypeFromString t with
      | some ty => some ⟨i, ty, d, ts, rc⟩
      | none => none
    else none
  | _ => none

/-- JSON.stringify(this.queue) (line 113), tree level. -/
def queueToJson (queue : List QueuedOperation) : Jval :=
  .arr (queue.map opToJson)

/-- Reading back each element of a parsed queue array in order. -/
def decodeOps : List Jval → Option (List QueuedOperation)
  | [] => some []
  | j :: rest =>
    match opFromJson j with
    | none => none
    | some op =>
      match decodeOps rest with
      | none => none
      | some ops => some (op :: ops)

/-- JSON.parse of a stored queue snapshot, interpreted back as the list of
operations (line 99). -/
def queueFromJson : Jval → Option (List QueuedOperation)
  | .arr xs => decodeOps xs
  | _ => none

/-- loadQueueFromStorage (lines 95-106).  The stored argument models
localStorage.getItem: none = no item stored (the if at line 98 is skipped
and the queue keeps its initial [] value); some none = an item is stored
but JSON.parse throws (the catch at line 102 resets the queue to []);
some (some j) = the item parses to the tree j.  The function is total:
the try/catch means loading never throws. -/
def loadQueueFromStorage (stored : Option (Option Jval)) : List QueuedOperation :=
  match stored with
  | none => []
  | some none => []
  | some (some j) => (queueFromJson j).getD []

end OfflineQueueService

namespace BackgroundSyncService

/-- SyncResult (BackgroundSyncService.ts lines 14-19). -/
structure SyncResult where
  success : Bool
  syncedOperations : Nat
  failedOperations : Nat
  errors : List String

/-- The mutable coordinator fields that performSync touches
(BackgroundSyncService.ts lines 29-33). -/
structure SyncState where
  syncInProgress : Bool
  errors : List String
  lastSyncTime : Option Nat

/-- SyncStatus (lines 6-12). -/
structure SyncStatus where
  isActive : Bool
  lastSyncTime : Option Nat
  pendingOperations : Nat
  syncInProgress : Bool
  errors : List String

/-- getStatus (lines 298-308): exposes the full errors list by copy. -/
def getStatus (isActive : Bool) (st : SyncState) (queue : List QueuedOperation) :
    SyncStatus :=
  { isActive := isActive
    lastSyncTime := st.lastSyncTime
    pendingOperations := queue.length
    syncInProgress := st.syncInProgress
    errors := st.errors }

/-- syncOperation (lines 201-225) acting on the queue: when the backend call
succeeds the operation is removed through removeFromQueue (line 218); when it
throws, the exception is caught and converted into a failure record, leaving
the queue untouched.  Returns the queue and the success flag. -/
def syncOperation (succeeds : QueuedOperation → Bool)
    (queue : List QueuedOperation) (operation : QueuedOperation) :
    List QueuedOperation × Bool :=
  if succeeds operation then
    ((OfflineQueueService.removeFromQueue operation.id queue).1, true)
  else (queue, false)

/-- The aggregate effect of the batch loop of performSync (lines 143-167) on
the queue: each snapshot operation is attempted once and, when successful,
removed.  Removals of distinct ids commute, so the batch partition and the
concurrent settlement inside a batch do not change the final queue. -/
def syncDrain (succeeds : QueuedOperation → Bool)
    (queue : List QueuedOperation) : List QueuedOperation :=
  queue.foldl (fun q op => (syncOperation succeeds q op).1) queue

def msgInProgress : String := "Sincronización ya en progreso"

def msgGeneralSyncError : String := "Error general de sincronización: "

/-- performSync (lines 107-196).  exn models a coordinator-level exception
thrown inside the try block (e.g. by the queue-snapshot read at line 125):
some m means the exception m is thrown before any operation is processed,
none means the body runs normally.  succeeds tells which operations the
backend accepts; errMsg models the per-operation message pushed into
syncErrors at line 159.  Returns the new coordinator state, the new queue
and the SyncResult.  The guard at line 108 returns early when a sync is in
progress and force is false; the finally block (lines 192-195) resets
syncInProgress on every non-guard path. -/
def performSync (exn : Option String) (succeeds : QueuedOperation → Bool)
    (errMsg : QueuedOperation → String) (now : Nat) (force : Bool)
    (st : SyncState) (queue : List QueuedOperation) :
    SyncState × List QueuedOperation × SyncResult :=
  if st.syncInProgress && !force then
    (st, queue, ⟨false, 0, 0, [msgInProgress]⟩)
  else
    match exn with
    | some m =>
        let msg := msgGeneralSyncError ++ m
        (⟨false, [msg], st.lastSyncTime⟩, queue, ⟨false, 0, 0, [msg]⟩)
    | none =>
        if queue.isEmpty then
          (⟨false, [], some now⟩, queue, ⟨true, 0, 0, []⟩)
        else
          let syncErrors := (queue.filter (fun op => !succeeds op)).map errMsg
          let syncedCount := (queue.filter (fun op => succeeds op)).length
          let failedCount := (queue.filter (fun op => !succeeds op)).length
          (⟨false, syncErrors, some now⟩, syncDrain succeeds queue,
            ⟨failedCount == 0, syncedCount, failedCount, syncErrors⟩)

end BackgroundSyncService

namespace CacheService

/-- CacheEntry<T> (CacheService.ts lines 4-9). -/
structure CacheEntry (α : Type) where
  data : α
  timestamp : Nat
  expiresAt : Nat
  version : String

/-- CacheConfig (lines 11-15). -/
structure CacheConfig where
  maxAge : Nat
  maxSize : Nat
  version : String

def versionOneZeroZero : String := "1.0.0"

/-- POSTS_CONFIG (lines 55-59). -/
def POSTS_CONFIG : CacheConfig :=
  { maxAge := 2 * 60 * 1000, maxSize := 500, version := versionOneZeroZero }

/-- QUERIES_CONFIG (lines 67-71). -/
def QUERIES_CONFIG : CacheConfig :=
  { maxAge := 1 * 60 * 1000, maxSize := 50, version := versionOneZeroZero }

/-- QueryCache (lines 24-33): query entries carry no version field.  The
geographic bounds are float coordinates never inspected by the cache logic,
kept opaque here. -/
structure QueryCache (α : Type) where
  key : String
  posts : α
  bounds : Option Unit
  timestamp : Nat
  expiresAt : Nat

/-- ImageCacheEntry (lines 17-22); the blob payload is opaque binary and
only its size participates in the cache logic. -/
structure ImageCacheEntry where
  url : String
  timestamp : Nat
  size : Nat

/-- IMAGES_CONFIG (lines 61-65). -/
def IMAGES_CONFIG_maxAge : Nat := 24 * 60 * 60 * 1000

def IMAGES_CONFIG_maxSize : Nat := 50 * 1024 * 1024

def IMAGES_CONFIG_maxEntries : Nat := 100

/-- cache[key] lookup on a JS object, modelled as an association list in key
insertion order. -/
def lookupKey (cache : List (String × β)) (k : String) : Option β :=
  match cache.find? (fun kv => kv.1 == k) with
  | some kv => some kv.2
  | none => none

/-- delete cache[key]. -/
def eraseKey (k : String) (cache : List (String × β)) : List (String × β) :=
  cache.filter (fun kv => kv.1 != k)

/-- cache[key] = value: replaces in place when the key exists, otherwise
appends (JS string-keyed objects preserve insertion order). -/
def insertKey (cache : List (String × β)) (k : String) (v : β) :
    List (String × β) :=
  if cache.any (fun kv => kv.1 == k) then
    cache.map (fun kv => if kv.1 == k then (k, v) else kv)
  else cache ++ [(k, v)]

/-- entries.sort((a, b) => a.timestamp - b.timestamp): a stable sort by
ascending timestamp key. -/
def sortByTs (f : γ → Nat) (l : List γ) : List γ :=
  l.insertionSort (fun a b => f a ≤ f b)

/-- limitCacheSize (lines 348-361): when the entry count exceeds maxSize,
the (length - maxSize) entries of least timestamp are deleted by key. -/
def limitCacheSize (ts : β → Nat) (cache : List (String × β)) (maxSize : Nat) :
    List (String × β) :=
  if maxSize < cache.length then
    let sorted := sortByTs (fun kv => ts kv.2) cache
    let toRemove := sorted.take (cache.length - maxSize)
    cache.filter (fun kv => !(toRemove.any (fun r => r.1 == kv.1)))
  else cache

/-- getCachedPosts (lines 127-154) on the parsed posts cache: absent key
returns null; an entry with Date.now() > expiresAt or a version different
from POSTS_CONFIG.version is deleted and null is returned; otherwise the
data is returned.  The pair is (returned value, cache after the call). -/
def getCachedPosts (now : Nat) (cache : List (String × CacheEntry α))
    (cacheKey : String) : Option α × List (String × CacheEntry α) :=
  match lookupKey cache cacheKey with
  | none => (none, cache)
  | some entry =>
    if entry.expiresAt < now then (none, eraseKey cacheKey cache)
    else if entry.version ≠ POSTS_CONFIG.version then (none, eraseKey cacheKey cache)
    else (some entry.data, cache)

/-- cachePosts (lines 102-122) on the parsed posts cache: stores the entry
stamped with expiresAt = now + maxAge and the namespace version, then
enforces the namespace entry bound. -/
def cachePosts (now : Nat) (posts : α) (cacheKey : String)
    (cache : List (String × CacheEntry α)) : List (String × CacheEntry α) :=
  let cacheEntry : CacheEntry α :=
    { data := posts, timestamp := now, expiresAt := now + POSTS_CONFIG.maxAge
      version := POSTS_CONFIG.version }
  limitCacheSize (fun e => e.timestamp) (insertKey cache cacheKey cacheEntry)
    POSTS_CONFIG.maxSize

/-- getCachedQuery (lines 298-317): only expiry is checked — QueryCache
entries carry no version and no version comparison appears in the code. -/
def getCachedQuery (now : Nat) (cache : List (String × QueryCache α))
    (queryKey : String) : Option α × List (String × QueryCache α) :=
  match lookupKey cache queryKey with
  | none => (none, cache)
  | some entry =>
    if entry.expiresAt < now then (none, eraseKey queryKey cache)
    else (some entry.posts, cache)

/-- cacheQuery (lines 273-293). -/
def cacheQuery (now : Nat) (queryKey : String) (posts : α) (bounds : Option Unit)
    (cache : List (String × QueryCache α)) : List (String × QueryCache α) :=
  let queryEntry : QueryCache α :=
    { key := queryKey, posts := posts, bounds := bounds, timestamp := now
      expiresAt := now + QUERIES_CONFIG.maxAge }
  limitCacheSize (fun q => q.timestamp) (insertKey cache queryKey queryEntry)
    QUERIES_CONFIG.maxSize

/-- Aggregate size of the image cache values (line 365). -/
def totalSize (entries : List ImageCacheEntry) : Nat :=
  (entries.map (fun e => e.size)).sum

/-- The eviction loop of limitImageCacheSize (lines 374-383): walks the
timestamp-sorted entries, deleting each from the cache and updating the
running size and count, until both budgets hold. -/
def evictLoop :
    List ImageCacheEntry → List ImageCacheEntry → Nat → Nat → List ImageCacheEntry
  | [], cache, _, _ => cache
  | e :: rest, cache, currentSize, currentCount =>
    if currentSize ≤ IMAGES_CONFIG_maxSize ∧ currentCount ≤ IMAGES_CONFIG_maxEntries then
      cache
    else
      evictLoop rest (cache.filter (fun o => o.url != e.url))
        (currentSize - e.size) (currentCount - 1)

/-- limitImageCacheSize (lines 363-385): when either the byte budget or the
entry budget is exceeded, evict in ascending timestamp order until both
budgets hold.  The image cache object is keyed by url, so it is modelled as
its value list with pairwise-distinct urls. -/
def limitImageCacheSize (cache : List ImageCacheEntry) : List ImageCacheEntry :=
  if IMAGES_CONFIG_maxSize < totalSize cache ∨
      IMAGES_CONFIG_maxEntries < cache.length then
    evictLoop (sortByTs (fun e => e.timestamp) cache) cache (totalSize cache)
      cache.length
  else cache

/-- getCachedImageBlob (lines 237-256) as a read: returns the entry unless
absent or older than the image maxAge.  (With Nat subtraction,
now - timestamp > maxAge agrees with the JS arithmetic whenever the result
matters, since a negative JS difference also fails the comparison.) -/
def getCachedImageBlobEntry (now : Nat) (cache : List ImageCacheEntry)
    (url : String) : Option ImageCacheEntry :=
  match cache.find? (fun e => e.url == url) with
  | none => none
  | some e => if IMAGES_CONFIG_maxAge < now - e.timestamp then none else some e

/-- cache[url] = imageEntry (line 220). -/
def insertImage (cache : List ImageCacheEntry) (entry : ImageCacheEntry) :
    List ImageCacheEntry :=
  if cache.any (fun o => o.url == entry.url) then
    cache.map (fun o => if o.url == entry.url then entry else o)
  else cache ++ [entry]

def blobScheme : String := "blob:"

/-- The url.startsWith test against the blob: scheme (line 197), computed
on the character sequences. -/
def isBlobUrl (url : String) : Bool :=
  blobScheme.data.isPrefixOf url.data

/-- cacheImage (lines 194-232) acting on the image cache object: blob: urls
are rejected (line 197); urls already cached and fresh are skipped
(line 203); a failed fetch aborts via the catch (lines 207-208, 229);
otherwise the downloaded entry is inserted and the budgets are enforced by
limitImageCacheSize (line 223). -/
def cacheImage (now : Nat) (url : String) (blobSize : Nat) (fetchOk : Bool)
    (cache : List ImageCacheEntry) : List ImageCacheEntry :=
  if isBlobUrl url then cache
  else if (getCachedImageBlobEntry now cache url).isSome then cache
  else if !fetchOk then cache
  else limitImageCacheSize (insertImage cache ⟨url, now, blobSize⟩)

/-- The persisted posts-cache slot as getPostsCache reads it: none = no item
under the key, some none = stored text whose JSON.parse throws, and
some (some c) = stored text parsing to the cache c. -/
def PostsStore (α : Type) : Type :=
  Option (Option (List (String × CacheEntry α)))

/-- getPostsCache (lines 321-328): absent and unparseable states both yield
the empty object thanks to the inner try/catch. -/
def getPostsCache (stored : PostsStore α) : List (String × CacheEntry α) :=
  match stored with
  | none => []
  | some none => []
  | some (some c) => c

def quotaMsg : String := "QuotaExceededError"

/-- The try-block of cachePosts (lines 103-118) over the persisted store,
with setItemFails injecting a localStorage.setItem failure (line 117): when
the write throws, the store is left unchanged and the exception escapes the
block. -/
def cachePostsBody (setItemFails : Bool) (now : Nat) (posts : α)
    (cacheKey : String) (stored : PostsStore α) : Except String (PostsStore α) :=
  let cache2 := cachePosts now posts cacheKey (getPostsCache stored)
  if setItemFails then .error quotaMsg else .ok (some (some cache2))

/-- cachePosts with its catch (lines 119-121): a storage failure is logged
and swallowed; the caller always gets a normal return. -/
def cachePostsSafe (setItemFails : Bool) (now : Nat) (posts : α)
    (cacheKey : String) (stored : PostsStore α) : Except String (PostsStore α) :=
  match cachePostsBody setItemFails now posts cacheKey stored with
  | .ok s => .ok s
  | .error _ => .ok stored

/-- The try-block of getCachedPosts (lines 128-149) over the persisted
store, with setItemFails injecting a failure of the setItem calls that
persist a purge (lines 137 and 144). -/
def getCachedPostsBody (setItemFails : Bool) (now : Nat) (cacheKey : String)
    (stored : PostsStore α) : Except String (Option α × PostsStore α) :=
  let cache := getPostsCache stored
  match lookupKey cache cacheKey with
  | none => .ok (none, stored)
  | some entry =>
    if entry.expiresAt < now then
      if setItemFails then .error quotaMsg
      else .ok (none, some (some (eraseKey cacheKey cache)))
    else if entry.version ≠ POSTS_CONFIG.version then
      if setItemFails then .error quotaMsg
      else .ok (none, some (some (eraseKey cacheKey cache)))
    else .ok (some entry.data, stored)

/-- getCachedPosts with its catch (lines 150-153): any storage failure is
swallowed and null is returned, leaving the store as it was. -/
def getCachedPostsSafe (setItemFails : Bool) (now : Nat) (cacheKey : String)
    (stored : PostsStore α) : Except String (Option α × PostsStore α) :=
  match getCachedPostsBody setItemFails now cacheKey stored with
  | .ok r => .ok r
  | .error _ => .ok (none, stored)

end CacheService

/-! Concrete inputs used by witnesses and counterexamples. -/

/-- A fresh operation (retryCount 0). -/
def opFresh : QueuedOperation :=
  { id := "op-a", type := OpType.UPDATE_PROFILE, data := Jval.null
    timestamp := 0, retryCount := 0 }

/-- An operation that has already failed twice (retryCount 2). -/
def opTwice : QueuedOperation :=
  { id := "op-b", type := OpType.UPDATE_PROFILE, data := Jval.null
    timestamp := 0, retryCount := 2 }

def keyK : String := "k"

def keyQ : String := "q"

/-- A posts-cache entry expiring at time 100 with the current version. -/
def postsEntry100 : CacheService.CacheEntry Nat :=
  { data := 7, timestamp := 0, expiresAt := 100
    version := CacheService.versionOneZeroZero }

def postsCache100 : List (String × CacheService.CacheEntry Nat) :=
  [(keyK, postsEntry100)]

/-- A query-cache entry expiring at time 100 (query entries carry no
version). -/
def queryEntry100 : CacheService.QueryCache Nat :=
  { key := "q", posts := 9, bounds := none, timestamp := 0, expiresAt := 100 }

def queryCache100 : List (String × CacheService.QueryCache Nat) :=
  [(keyQ, queryEntry100)]

/-- A one-entry namespace (values are bare timestamps) for the eviction
witness. -/
def witnessCacheC7 : List (String × Nat) :=
  [(keyK, 5)]

def urlU : String := "u1"

/-! Helper lemmas shared across the claim theorems. -/

namespace OfflineQueueService

theorem opFromJson_opToJson (op : QueuedOperation) :
    opFromJson (opToJson op) = some op := by
  obtain ⟨i, ty, d, ts, rc⟩ := op
  cases ty <;> rfl

theorem decodeOps_map_opToJson (l : List QueuedOperation) :
    decodeOps (l.map opToJson) = some l := by
  induction l with
  | nil => rfl
  | cons op rest ih => simp [decodeOps, opFromJson_opToJson, ih]

theorem queueFromJson_queueToJson (q : List QueuedOperation) :
    queueFromJson (queueToJson q) = some q := by
  simp [queueFromJson, queueToJson, decodeOps_map_opToJson]

end OfflineQueueService

theorem beq_comm_string (a b : String) : (a == b) = (b == a) := by
  by_cases h : a = b
  · simp [h]
  · have h2 : ¬ b = a := fun he => h he.symm
    simp [h, h2]

theorem filter_bne_of_not_mem_keys {γ : Type} (f : γ → String) (k : String) :
    ∀ (l : List γ), k ∉ l.map f → l.filter (fun x => f x != k) = l := by
  intro l
  induction l with
  | nil => intro _; rfl
  | cons a t ih =>
    intro h
    simp only [List.map_cons, List.mem_cons] at h
    push_neg at h
    have ha : (f a != k) = true := by
      simp [bne_iff_ne]
      exact fun he => h.1 he.symm
    simp [List.filter_cons, ha, ih h.2]

theorem eq_of_mem_nodup_keys {γ : Type} (f : γ → String) :
    ∀ (l : List γ), (l.map f).Nodup →
      ∀ {a b : γ}, a ∈ l → b ∈ l → f a = f b → a = b := by
  intro l
  induction l with
  | nil => intro _ a b ha; cases ha
  | cons x t ih =>
    intro hnd a b ha hb hab
    simp only [List.map_cons, List.nodup_cons] at hnd
    rcases List.mem_cons.mp ha with ha1 | ha2 <;>
      rcases List.mem_cons.mp hb with hb1 | hb2
    · rw [ha1, hb1]
    · exfalso
      apply hnd.1
      rw [ha1] at hab
      rw [hab]
      exact List.mem_map_of_mem f hb2
    · exfalso
      apply hnd.1
      rw [hb1] at hab
      rw [← hab]
      exact List.mem_map_of_mem f ha2
    · exact ih hnd.2 ha2 hb2 hab

theorem length_filter_bne_keys {γ : Type} (f : γ → String) :
    ∀ (l : List γ), (l.map f).Nodup →
      ∀ {m : γ}, m ∈ l →
        (l.filter (fun x => f x != f m)).length + 1 = l.length := by
  intro l
  induction l with
  | nil => intro _ m hm; cases hm
  | cons a t ih =>
    intro hnd m hm
    simp only [List.map_cons, List.nodup_cons] at hnd
    by_cases hk : f a = f m
    · have hnt : f m ∉ t.map f := hk ▸ hnd.1
      have hrest := filter_bne_of_not_mem_keys f (f m) t hnt
      simp [List.filter_cons, hk, hrest]
    · have hmt : m ∈ t := by
        rcases List.mem_cons.mp hm with h1 | h2
        · exfalso; exact hk (by rw [h1])
        · exact h2
      have hlen := ih hnd.2 hmt
      simp [List.filter_cons, hk]
      omega

theorem any_beq_eq_false_of_not_mem_keys {γ : Type} (f : γ → String)
    (k : String) (l : List γ) (h : k ∉ l.map f) :
    l.any (fun x => f x == k) = false := by
  rw [List.any_eq_false]
  intro x hx
  simp only [beq_iff_eq]
  intro he
  exact h (he ▸ List.mem_map_of_mem f hx)

/-- The batch loop of performSync only ever removes successfully synced
operations: folding syncOperation over a snapshot s filters out of q the
entries whose id matches some succeeding snapshot element. -/
theorem syncOperation_foldl (succeeds : QueuedOperation → Bool) :
    ∀ (s q : List QueuedOperation),
      s.foldl (fun q op => (BackgroundSyncService.syncOperation succeeds q op).1) q
        = q.filter (fun o => !(s.any (fun op => succeeds op && op.id == o.id))) := by
  intro s
  induction s with
  | nil =>
    intro q
    simp
  | cons op rest ih =>
    intro q
    simp only [List.foldl_cons]
    rw [ih]
    by_cases hs : succeeds op = true
    · have hstep : (BackgroundSyncService.syncOperation succeeds q op).1
          = q.filter (fun o => o.id != op.id) := by
        simp [BackgroundSyncService.syncOperation, hs,
          OfflineQueueService.removeFromQueue, OfflineQueueService.removeById]
      rw [hstep, List.filter_filter]
      apply List.filter_congr
      intro o _
      cases hb : (o.id == op.id) <;>
        cases hr : rest.any (fun x => succeeds x && x.id == o.id) <;>
          simp [List.any_cons, hs, hb, hr, bne, beq_comm_string op.id o.id]
    · have hstep : (BackgroundSyncService.syncOperation succeeds q op).1 = q := by
        simp [BackgroundSyncService.syncOperation, hs]
      rw [hstep]
      apply List.filter_congr
      intro o _
      simp [List.any_cons, hs]

/-! Claim theorems. -/

/-- Claim C1 [corrected], counterexample: the drop of a retry-exhausted
operation leaves no trace in the status channel.  OfflineStatus consists of
isOnline, lastOnlineTime and queuedOperations only — there is no errors
field — so after the drain that drops opTwice (already at retryCount 2,
failing once more) the status is identical to the status of a service whose
queue was always empty: the drop cannot appear in any errors reported
through the status channel, refuting the last conjunct of the claim. -/
theorem C1_counterexample :
    OfflineQueueService.processQueue true false (fun _ => true) [opTwice] = [] ∧
    OfflineQueueService.getStatus true 1000
        (OfflineQueueService.processQueue true false (fun _ => true) [opTwice]) =
      OfflineQueueService.getStatus true 1000 [] :=
  ⟨rfl, rfl⟩

/-- Claim C1 [corrected], amended: for an operation whose execution fails on
every attempt, each failed drain increments retryCount by one
(0 to 1 to 2), and the third failed attempt removes the operation from the
queue (MAX_RETRY_COUNT = 3); the drop is only logged to the console and is
not reported through the status channel (see the counterexample). -/
theorem C1_amended (op : QueuedOperation) (h : op.retryCount = 0) :
    OfflineQueueService.processQueue true false (fun _ => true) [op]
      = [{ op with retryCount := 1 }] ∧
    OfflineQueueService.processQueue true false (fun _ => true)
        (OfflineQueueService.processQueue true false (fun _ => true) [op])
      = [{ op with retryCount := 2 }] ∧
    OfflineQueueService.processQueue true false (fun _ => true)
        (OfflineQueueService.processQueue true false (fun _ => true)
          (OfflineQueueService.processQueue true false (fun _ => true) [op]))
      = [] := by
  obtain ⟨i, ty, d, ts, rc⟩ := op
  simp only at h
  subst h
  refine ⟨?_, ?_, ?_⟩ <;>
    simp [OfflineQueueService.processQueue, OfflineQueueService.processOne,
      OfflineQueueService.incFirst, OfflineQueueService.removeById,
      OfflineQueueService.MAX_RETRY_COUNT]

/-- Witness for C1_amended at a concrete operation. -/
theorem C1_witness :
    opFresh.retryCount = 0 ∧
    OfflineQueueService.processQueue true false (fun _ => true) [opFresh]
      = [{ opFresh with retryCount := 1 }] :=
  ⟨rfl, (C1_amended opFresh rfl).1⟩

/-- Claim C3 [corrected], counterexample: in a coordinator drain
(performSync), an operation whose backend execution fails is left in the
queue with its retryCount unchanged (still 0) — its retry counter is NOT
advanced through the mutation path of the Operation Queue, refuting the
second conjunct of the claim. -/
theorem C3_counterexample :
    BackgroundSyncService.syncDrain (fun _ => false) [opFresh] = [opFresh] ∧
    (BackgroundSyncService.syncDrain (fun _ => false) [opFresh]).map
        (fun op => op.retryCount) = [0] :=
  ⟨rfl, rfl⟩

/-- Claim C3 [corrected], amended: in every coordinator drain, each
operation that completes successfully is removed from the Operation Queue,
and each operation whose backend execution fails is left in the queue
verbatim — the Sync Coordinator never touches its retry counter. -/
theorem C3_amended (succeeds : QueuedOperation → Bool)
    (queue : List QueuedOperation)
    (h : (queue.map (fun op => op.id)).Nodup) :
    BackgroundSyncService.syncDrain succeeds queue
      = queue.filter (fun op => !succeeds op) := by
  unfold BackgroundSyncService.syncDrain
  rw [syncOperation_foldl]
  apply List.filter_congr
  intro o ho
  by_cases hs : succeeds o = true
  · have hany : queue.any (fun op => succeeds op && op.id == o.id) = true := by
      rw [List.any_eq_true]
      exact ⟨o, ho, by simp [hs]⟩
    simp [hany, hs]
  · have hany : queue.any (fun op => succeeds op && op.id == o.id) = false := by
      rw [List.any_eq_false]
      intro x hx
      simp only [Bool.and_eq_true, beq_iff_eq, not_and]
      intro hsx hid
      have hxo := eq_of_mem_nodup_keys (fun op => op.id) queue h hx ho hid
      rw [hxo] at hsx
      exact hs hsx
    simp [hany, hs]

/-- Witness for C3_amended at a concrete queue. -/
theorem C3_witness :
    (([opFresh, opTwice].map (fun op => op.id)).Nodup) ∧
    BackgroundSyncService.syncDrain (fun op => op.id == opFresh.id)
        [opFresh, opTwice]
      = [opFresh, opTwice].filter (fun op => !(op.id == opFresh.id)) :=
  ⟨by decide, C3_amended _ _ (by decide)⟩

/-- Claim C4 [confirmed]: a coordinator-level exception thrown during a
drain aborts it (no operation synced, queue untouched, success = false),
records the exception into the errors list exposed through getStatus, that
list holds at most 5 entries, and syncInProgress is reset to false by the
finally block, so future triggers are not blocked by the guard. -/
theorem C4_coordinator_exception (m : String)
    (succeeds : QueuedOperation → Bool) (errMsg : QueuedOperation → String)
    (now : Nat) (force : Bool) (st : BackgroundSyncService.SyncState)
    (queue : List QueuedOperation) (isActive : Bool)
    (hguard : st.syncInProgress = false ∨ force = true) :
    (BackgroundSyncService.performSync (some m) succeeds errMsg now force st queue).2.2.success
      = false ∧
    (BackgroundSyncService.performSync (some m) succeeds errMsg now force st queue).2.2.syncedOperations
      = 0 ∧
    (BackgroundSyncService.performSync (some m) succeeds errMsg now force st queue).2.1
      = queue ∧
    (BackgroundSyncService.performSync (some m) succeeds errMsg now force st queue).1.errors
      = [BackgroundSyncService.msgGeneralSyncError ++ m] ∧
    (BackgroundSyncService.performSync (some m) succeeds errMsg now force st queue).1.errors.length
      ≤ 5 ∧
    (BackgroundSyncService.performSync (some m) succeeds errMsg now force st queue).1.syncInProgress
      = false ∧
    (BackgroundSyncService.getStatus isActive
        (BackgroundSyncService.performSync (some m) succeeds errMsg now force st queue).1
        queue).errors
      = [BackgroundSyncService.msgGeneralSyncError ++ m] := by
  have hg : (st.syncInProgress && !force) = false := by
    rcases hguard with h | h <;> simp [h]
  simp [BackgroundSyncService.performSync, hg, BackgroundSyncService.getStatus]

/-- Witness for C4_coordinator_exception at a concrete state. -/
theorem C4_witness :
    (BackgroundSyncService.performSync (some ("boom")) (fun _ => true)
        (fun _ => ("err")) 5 false ⟨false, [], none⟩ []).2.2.success = false ∧
    (BackgroundSyncService.performSync (some ("boom")) (fun _ => true)
        (fun _ => ("err")) 5 false ⟨false, [], none⟩ []).1.syncInProgress = false ∧
    (BackgroundSyncService.performSync (some ("boom")) (fun _ => true)
        (fun _ => ("err")) 5 false ⟨false, [], none⟩ []).1.errors
      = [BackgroundSyncService.msgGeneralSyncError ++ ("boom")] := by
  have h := C4_coordinator_exception ("boom") (fun _ => true) (fun _ => ("err"))
    5 false ⟨false, [], none⟩ [] true (Or.inl rfl)
  exact ⟨h.1, h.2.2.2.2.2.1, h.2.2.2.1⟩

/-- Claim C5 [confirmed]: serializing any queue state to its stored JSON
form and rehydrating it on load yields the same sequence of operations
verbatim — no entries dropped, reordered or modified, so FIFO insertion
order survives the persistence round-trip. -/
theorem C5_persistence_roundtrip (queue : List QueuedOperation) :
    OfflineQueueService.queueFromJson (OfflineQueueService.queueToJson queue)
      = some queue ∧
    OfflineQueueService.loadQueueFromStorage
        (some (some (OfflineQueueService.queueToJson queue))) = queue := by
  refine ⟨OfflineQueueService.queueFromJson_queueToJson queue, ?_⟩
  simp [OfflineQueueService.loadQueueFromStorage,
    OfflineQueueService.queueFromJson_queueToJson]

/-- Claim C9 [confirmed]: after any event history, getStatus reports
lastOnlineTime = now exactly when currently online and null when offline.
QueueState (mirroring the class fields) stores no last-online timestamp,
so the status never reports the time the client was last online while
offline: the reported value depends only on the current flag and clock. -/
theorem C9_lastOnlineTime (navigatorOnLine : Bool)
    (events : List OfflineQueueService.QEvent) (now : Nat) :
    OfflineQueueService.getStatus
        (OfflineQueueService.runQueue navigatorOnLine events).isOnline now
        (OfflineQueueService.runQueue navigatorOnLine events).queue
      = { isOnline := (OfflineQueueService.runQueue navigatorOnLine events).isOnline
          lastOnlineTime :=
            if (OfflineQueueService.runQueue navigatorOnLine events).isOnline
            then some now else none
          queuedOperations :=
            (OfflineQueueService.runQueue navigatorOnLine events).queue.length } :=
  rfl

/-- Claim C10 [confirmed]: when the persisted snapshot is absent, the queue
initializes empty; when the stored text fails to parse, the catch resets
the queue to empty, silently discarding whatever operations the snapshot
held.  loadQueueFromStorage is a total function, so startup never throws. -/
theorem C10_corrupt_snapshot :
    OfflineQueueService.loadQueueFromStorage none = [] ∧
    OfflineQueueService.loadQueueFromStorage (some none) = [] :=
  ⟨rfl, rfl⟩

/-- Purging deletes the key: a lookup after eraseKey misses. -/
theorem lookupKey_eraseKey {β : Type} (k : String) (cache : List (String × β)) :
    CacheService.lookupKey (CacheService.eraseKey k cache) k = none := by
  have h : (cache.filter (fun kv => kv.1 != k)).find? (fun kv => kv.1 == k) = none := by
    rw [List.find?_eq_none]
    intro kv hkv
    have hm := (List.mem_filter.mp hkv).2
    simp only [bne_iff_ne, ne_eq] at hm
    simp [hm]
  simp [CacheService.lookupKey, CacheService.eraseKey, h]

/-- Claim C2 [corrected], counterexample: the claim requires a non-null get
exactly when now is strictly before expiresAt; but the code checks
Date.now() > expiresAt, so at now = expiresAt = 100 the entry is still
returned although now < expiresAt fails. -/
theorem C2_counterexample :
    (CacheService.getCachedPosts 100 postsCache100 keyK).1 = some 7 ∧
    ¬ (100 < postsEntry100.expiresAt) :=
  ⟨rfl, by decide⟩

/-- Claim C2 [corrected], amended: get returns the stored value iff
now ≤ expiresAt (the entry is still served at the expiry instant itself)
and, for the posts/user-posts namespace, the entry version equals the
namespace version; query-cache entries carry no schema version and only
expiry is checked.  When the check fails, the entry is purged and a
subsequent get returns null without re-reading stale state. -/
theorem C2_amended {α : Type} (now : Nat)
    (cache : List (String × CacheService.CacheEntry α)) (cacheKey : String)
    (entry : CacheService.CacheEntry α)
    (hmem : CacheService.lookupKey cache cacheKey = some entry)
    (qcache : List (String × CacheService.QueryCache α)) (queryKey : String)
    (qentry : CacheService.QueryCache α)
    (hqmem : CacheService.lookupKey qcache queryKey = some qentry) :
    ((CacheService.getCachedPosts now cache cacheKey).1
      = if now ≤ entry.expiresAt ∧ entry.version = CacheService.POSTS_CONFIG.version
        then some entry.data else none) ∧
    (¬ (now ≤ entry.expiresAt ∧ entry.version = CacheService.POSTS_CONFIG.version) →
      (CacheService.getCachedPosts now
          (CacheService.getCachedPosts now cache cacheKey).2 cacheKey).1 = none) ∧
    ((CacheService.getCachedQuery now qcache queryKey).1
      = if now ≤ qentry.expiresAt then some qentry.posts else none) ∧
    (¬ now ≤ qentry.expiresAt →
      (CacheService.getCachedQuery now
          (CacheService.getCachedQuery now qcache queryKey).2 queryKey).1 = none) := by
  refine ⟨?_, ?_, ?_, ?_⟩
  · simp only [CacheService.getCachedPosts, hmem]
    by_cases hexp : entry.expiresAt < now
    · rw [if_pos hexp]
      have hninv : ¬ (now ≤ entry.expiresAt ∧
          entry.version = CacheService.POSTS_CONFIG.version) := by
        rintro ⟨hle, _⟩
        omega
      simp [hninv]
    · rw [if_neg hexp]
      by_cases hver : entry.version ≠ CacheService.POSTS_CONFIG.version
      · rw [if_pos hver]
        have hninv : ¬ (now ≤ entry.expiresAt ∧
            entry.version = CacheService.POSTS_CONFIG.version) := by
          rintro ⟨_, hv⟩
          exact hver hv
        simp [hninv]
      · push_neg at hver
        rw [if_neg (by simp [hver])]
        simp [Nat.not_lt.mp hexp, hver]
  · intro hinv
    simp only [CacheService.getCachedPosts, hmem]
    by_cases hexp : entry.expiresAt < now
    · rw [if_pos hexp]
      simp [CacheService.getCachedPosts, lookupKey_eraseKey]
    · rw [if_neg hexp]
      have hver : entry.version ≠ CacheService.POSTS_CONFIG.version := by
        intro hv
        exact hinv ⟨Nat.not_lt.mp hexp, hv⟩
      rw [if_pos hver]
      simp [CacheService.getCachedPosts, lookupKey_eraseKey]
  · simp only [CacheService.getCachedQuery, hqmem]
    by_cases hexp : qentry.expiresAt < now
    · rw [if_pos hexp]
      have hnle : ¬ now ≤ qentry.expiresAt := by omega
      simp [hnle]
    · rw [if_neg hexp]
      simp [Nat.not_lt.mp hexp]
  · intro hinv
    simp only [CacheService.getCachedQuery, hqmem]
    have hexp : qentry.expiresAt < now := by omega
    rw [if_pos hexp]
    simp [CacheService.getCachedQuery, lookupKey_eraseKey]

/-- Witness for C2_amended on a concrete expired access. -/
theorem C2_witness :
    CacheService.lookupKey postsCache100 keyK = some postsEntry100 ∧
    (CacheService.getCachedPosts 150 postsCache100 keyK).1
      = (if 150 ≤ postsEntry100.expiresAt ∧
            postsEntry100.version = CacheService.POSTS_CONFIG.version
         then some postsEntry100.data else none) ∧
    (CacheService.getCachedQuery 150 queryCache100 keyQ).1
      = (if 150 ≤ queryEntry100.expiresAt then some queryEntry100.posts else none) := by
  have h := C2_amended 150 postsCache100 keyK postsEntry100 rfl
    queryCache100 keyQ queryEntry100 rfl
  exact ⟨rfl, h.1, h.2.2.1⟩

/-- Claim C8 [confirmed]: storage faults never propagate out of the cache.
cachePostsSafe and getCachedPostsSafe always return normally (never an
exception); a failing setItem makes the put a no-op on the store, and a get
whose purge write fails still returns null with the store unchanged. -/
theorem C8_storage_errors_absorbed {α : Type} (now : Nat) (cacheKey : String)
    (cache : List (String × CacheService.CacheEntry α))
    (entry : CacheService.CacheEntry α)
    (hl : CacheService.lookupKey cache cacheKey = some entry)
    (hexp : entry.expiresAt < now) :
    (∀ (setItemFails : Bool) (n : Nat) (p : α) (k : String)
        (s : CacheService.PostsStore α),
      ∃ out, CacheService.cachePostsSafe setItemFails n p k s = .ok out) ∧
    (∀ (setItemFails : Bool) (n : Nat) (k : String)
        (s : CacheService.PostsStore α),
      ∃ out, CacheService.getCachedPostsSafe setItemFails n k s = .ok out) ∧
    (∀ (n : Nat) (p : α) (k : String) (s : CacheService.PostsStore α),
      CacheService.cachePostsSafe true n p k s = .ok s) ∧
    (CacheService.getCachedPostsSafe true now cacheKey (some (some cache))
      = .ok (none, some (some cache))) := by
  refine ⟨?_, ?_, ?_, ?_⟩
  · intro setItemFails n p k s
    cases h : CacheService.cachePostsBody setItemFails n p k s with
    | ok out => exact ⟨out, by simp [CacheService.cachePostsSafe, h]⟩
    | error e => exact ⟨s, by simp [CacheService.cachePostsSafe, h]⟩
  · intro setItemFails n k s
    cases h : CacheService.getCachedPostsBody setItemFails n k s with
    | ok out => exact ⟨out, by simp [CacheService.getCachedPostsSafe, h]⟩
    | error e => exact ⟨(none, s), by simp [CacheService.getCachedPostsSafe, h]⟩
  · intro n p k s
    simp [CacheService.cachePostsSafe, CacheService.cachePostsBody]
  · simp [CacheService.getCachedPostsSafe, CacheService.getCachedPostsBody,
      CacheService.getPostsCache, hl, hexp]

/-- Witness for C8_storage_errors_absorbed on a concrete expired entry. -/
theorem C8_witness :
    CacheService.lookupKey postsCache100 keyK = some postsEntry100 ∧
    postsEntry100.expiresAt < 150 ∧
    CacheService.getCachedPostsSafe true 150 keyK (some (some postsCache100))
      = .ok (none, some (some postsCache100)) := by
  have h := C8_storage_errors_absorbed 150 keyK postsCache100 postsEntry100 rfl
    (by decide)
  exact ⟨rfl, by decide, h.2.2.2⟩

/-- The stable timestamp sort is a permutation of its input. -/
theorem sortByTs_perm {γ : Type} (f : γ → Nat) (l : List γ) :
    List.Perm (CacheService.sortByTs f l) l :=
  List.perm_insertionSort _ l

/-- The stable timestamp sort is sorted by ascending key. -/
theorem sortByTs_sorted {γ : Type} (f : γ → Nat) (l : List γ) :
    List.Pairwise (fun a b => f a ≤ f b) (CacheService.sortByTs f l) := by
  haveI ht : IsTotal γ (fun a b => f a ≤ f b) := ⟨fun a b => Nat.le_total (f a) (f b)⟩
  haveI htr : IsTrans γ (fun a b => f a ≤ f b) :=
    ⟨fun a b c hab hbc => Nat.le_trans hab hbc⟩
  exact List.sorted_insertionSort _ l

/-- limitCacheSize on a namespace that just went one over its bound removes
exactly one minimal-timestamp entry. -/
theorem limitCacheSize_evicts_oldest {β : Type} (ts : β → Nat) (maxSize : Nat)
    (full : List (String × β))
    (hflen : full.length = maxSize + 1)
    (hfnodup : (full.map (fun kv => kv.1)).Nodup) :
    ∃ m, m ∈ full ∧ (∀ kv ∈ full, ts m.2 ≤ ts kv.2) ∧
      CacheService.limitCacheSize ts full maxSize
        = full.filter (fun kv => kv.1 != m.1) ∧
      (CacheService.limitCacheSize ts full maxSize).length = maxSize := by
  have hperm : List.Perm (CacheService.sortByTs (fun kv => ts kv.2) full) full :=
    sortByTs_perm _ full
  have hpair := sortByTs_sorted (fun kv => ts kv.2) full
  have hslen : (CacheService.sortByTs (fun kv => ts kv.2) full).length = maxSize + 1 := by
    rw [hperm.length_eq, hflen]
  obtain ⟨m, stail, hcons⟩ :
      ∃ a tl, CacheService.sortByTs (fun kv => ts kv.2) full = a :: tl := by
    cases hs : CacheService.sortByTs (fun kv => ts kv.2) full with
    | nil => rw [hs] at hslen; simp at hslen
    | cons a tl => exact ⟨a, tl, rfl⟩
  have hmmem : m ∈ full := by
    apply hperm.mem_iff.mp
    rw [hcons]
    exact List.mem_cons_self m stail
  have hmin : ∀ kv ∈ full, ts m.2 ≤ ts kv.2 := by
    intro kv hkv
    have hks : kv ∈ CacheService.sortByTs (fun kv => ts kv.2) full :=
      hperm.mem_iff.mpr hkv
    rw [hcons] at hks
    rcases List.mem_cons.mp hks with h1 | h2
    · rw [h1]
    · rw [hcons] at hpair
      exact List.rel_of_pairwise_cons hpair h2
  have hcond : maxSize < full.length := by omega
  have hsub : full.length - maxSize = 1 := by omega
  have hres : CacheService.limitCacheSize ts full maxSize
      = full.filter (fun kv => kv.1 != m.1) := by
    unfold CacheService.limitCacheSize
    rw [if_pos hcond]
    simp only [hsub, hcons, List.take_succ_cons, List.take_zero]
    apply List.filter_congr
    intro kv _
    cases hb : (kv.1 == m.1) <;>
      simp [List.any_cons, beq_comm_string m.1 kv.1, hb, bne]
  refine ⟨m, hmmem, hmin, hres, ?_⟩
  rw [hres]
  have hlf := length_filter_bne_keys (fun kv => kv.1) full hfnodup hmmem
  simp only at hlf
  omega

/-- Claim C7 [confirmed]: for every cache namespace bounded to N entries
(posts: 500, queries: 50 — both enforced through limitCacheSize after the
insertKey of cachePosts / cacheQuery), inserting an (N+1)-th entry into a
full namespace evicts exactly one entry, an oldest one by timestamp, so the
entry-count bound holds after every insert. -/
theorem C7_single_oldest_eviction {β : Type} (ts : β → Nat) (maxSize : Nat)
    (cache : List (String × β)) (k : String) (v : β)
    (hnodup : (cache.map (fun kv => kv.1)).Nodup)
    (hfresh : k ∉ cache.map (fun kv => kv.1))
    (hfull : cache.length = maxSize) :
    ∃ m, m ∈ CacheService.insertKey cache k v ∧
      (∀ kv ∈ CacheService.insertKey cache k v, ts m.2 ≤ ts kv.2) ∧
      CacheService.limitCacheSize ts (CacheService.insertKey cache k v) maxSize
        = (CacheService.insertKey cache k v).filter (fun kv => kv.1 != m.1) ∧
      (CacheService.limitCacheSize ts (CacheService.insertKey cache k v) maxSize).length
        = maxSize := by
  have hins : CacheService.insertKey cache k v = cache ++ [(k, v)] := by
    unfold CacheService.insertKey
    rw [any_beq_eq_false_of_not_mem_keys (fun kv => kv.1) k cache hfresh]
    simp
  have hflen : (CacheService.insertKey cache k v).length = maxSize + 1 := by
    rw [hins]
    simp [hfull]
  have hfnodup : ((CacheService.insertKey cache k v).map (fun kv => kv.1)).Nodup := by
    rw [hins, List.map_append, List.nodup_append]
    refine ⟨hnodup, List.nodup_singleton k, ?_⟩
    intro x hx
    simp only [List.map_cons, List.map_nil, List.mem_singleton]
    intro hxk
    rw [hxk] at hx
    exact hfresh hx
  exact limitCacheSize_evicts_oldest ts maxSize _ hflen hfnodup

/-- Filtering preserves key-nodup. -/
theorem nodup_map_filter {γ δ : Type} (f : γ → δ) (p : γ → Bool) (l : List γ)
    (h : (l.map f).Nodup) : ((l.filter p).map f).Nodup :=
  h.sublist ((l.filter_sublist).map f)

/-- One eviction step: removing the head of the sorted suffix from the
cache leaves a permutation of the sorted tail. -/
theorem evict_step_perm (e : CacheService.ImageCacheEntry)
    (rest cache : List CacheService.ImageCacheEntry)
    (hperm : List.Perm (e :: rest) cache)
    (hnd : (cache.map (fun x => x.url)).Nodup) :
    List.Perm rest (cache.filter (fun o => o.url != e.url)) := by
  have hndsorted : ((e :: rest).map (fun x => x.url)).Nodup :=
    ((hperm.map (fun x => x.url)).nodup_iff).mpr hnd
  have henotin : e.url ∉ rest.map (fun x => x.url) := by
    simp only [List.map_cons, List.nodup_cons] at hndsorted
    exact hndsorted.1
  have h1 := hperm.filter (fun o => o.url != e.url)
  rw [List.filter_cons] at h1
  have hpe : (e.url != e.url) = false := bne_self_eq_false e.url
  rw [hpe] at h1
  rw [if_neg Bool.false_ne_true] at h1
  rw [filter_bne_of_not_mem_keys (fun o => o.url) e.url rest henotin] at h1
  exact h1

/-- Everything the eviction loop returns was already in the cache. -/
theorem evictLoop_subset :
    ∀ (sorted cache : List CacheService.ImageCacheEntry) (s c : Nat)
      {x : CacheService.ImageCacheEntry},
      x ∈ CacheService.evictLoop sorted cache s c → x ∈ cache := by
  intro sorted
  induction sorted with
  | nil =>
    intro cache s c x hx
    exact hx
  | cons e rest ih =>
    intro cache s c x hx
    rw [CacheService.evictLoop] at hx
    by_cases hcond : s ≤ CacheService.IMAGES_CONFIG_maxSize ∧
        c ≤ CacheService.IMAGES_CONFIG_maxEntries
    · rw [if_pos hcond] at hx
      exact hx
    · rw [if_neg hcond] at hx
      exact (List.mem_filter.mp (ih _ _ _ hx)).1

/-- After the eviction loop of limitImageCacheSize, both the byte budget
and the entry budget hold, provided the running size and count entered the
loop consistent with the cache and the sorted list enumerates the cache. -/
theorem evictLoop_bounds :
    ∀ (sorted cache : List CacheService.ImageCacheEntry) (s c : Nat),
      List.Perm sorted cache →
      (cache.map (fun e => e.url)).Nodup →
      s = CacheService.totalSize cache →
      c = cache.length →
      CacheService.totalSize (CacheService.evictLoop sorted cache s c)
          ≤ CacheService.IMAGES_CONFIG_maxSize ∧
        (CacheService.evictLoop sorted cache s c).length
          ≤ CacheService.IMAGES_CONFIG_maxEntries := by
  intro sorted
  induction sorted with
  | nil =>
    intro cache s c hperm _ _ _
    have hnil : cache = [] := hperm.symm.eq_nil
    subst hnil
    simp [CacheService.evictLoop, CacheService.totalSize]
  | cons e rest ih =>
    intro cache s c hperm hnd hs hc
    rw [CacheService.evictLoop]
    by_cases hcond : s ≤ CacheService.IMAGES_CONFIG_maxSize ∧
        c ≤ CacheService.IMAGES_CONFIG_maxEntries
    · rw [if_pos hcond]
      exact ⟨hs ▸ hcond.1, hc ▸ hcond.2⟩
    · rw [if_neg hcond]
      have hperm' := evict_step_perm e rest cache hperm hnd
      have hnd' := nodup_map_filter (fun x => x.url) (fun o => o.url != e.url) cache hnd
      have hsize' : s - e.size
          = CacheService.totalSize (cache.filter (fun o => o.url != e.url)) := by
        have h2 : CacheService.totalSize (cache.filter (fun o => o.url != e.url))
            = CacheService.totalSize rest := by
          unfold CacheService.totalSize
          exact ((hperm'.map (fun x => x.size)).sum_eq).symm
        have h3 : CacheService.totalSize cache
            = e.size + CacheService.totalSize rest := by
          have h4 := (hperm.map (fun x => x.size)).sum_eq
          simp only [List.map_cons, List.sum_cons] at h4
          unfold CacheService.totalSize
          omega
        rw [h2, hs, h3]
        omega
      have hcount' : c - 1 = (cache.filter (fun o => o.url != e.url)).length := by
        have h2 : (cache.filter (fun o => o.url != e.url)).length = rest.length :=
          hperm'.length_eq.symm
        have h3 : cache.length = rest.length + 1 := by
          rw [← hperm.length_eq]
          simp
        rw [h2, hc, h3]
        omega
      exact ih _ _ _ hperm' hnd' hsize' hcount'

/-- The eviction loop removes oldest entries first: any entry it evicted is
no younger than any entry it kept. -/
theorem evictLoop_oldest :
    ∀ (sorted cache : List CacheService.ImageCacheEntry) (s c : Nat),
      List.Perm sorted cache →
      (cache.map (fun e => e.url)).Nodup →
      List.Pairwise (fun a b => a.timestamp ≤ b.timestamp) sorted →
      ∀ x ∈ cache, x ∉ CacheService.evictLoop sorted cache s c →
        ∀ y ∈ CacheService.evictLoop sorted cache s c,
          x.timestamp ≤ y.timestamp := by
  intro sorted
  induction sorted with
  | nil =>
    intro cache s c _ _ _ x hx hnx y _
    rw [CacheService.evictLoop] at hnx
    exact absurd hx hnx
  | cons e rest ih =>
    intro cache s c hperm hnd hpair x hx hnx y hy
    rw [CacheService.evictLoop] at hnx hy
    by_cases hcond : s ≤ CacheService.IMAGES_CONFIG_maxSize ∧
        c ≤ CacheService.IMAGES_CONFIG_maxEntries
    · rw [if_pos hcond] at hnx
      exact absurd hx hnx
    · rw [if_neg hcond] at hnx hy
      have hperm' := evict_step_perm e rest cache hperm hnd
      have hnd' := nodup_map_filter (fun x => x.url) (fun o => o.url != e.url) cache hnd
      by_cases hxf : x ∈ cache.filter (fun o => o.url != e.url)
      · exact ih _ _ _ hperm' hnd' (List.Pairwise.of_cons hpair) x hxf hnx y hy
      · have hxurl : x.url = e.url := by
          by_contra hne
          apply hxf
          rw [List.mem_filter]
          refine ⟨hx, ?_⟩
          simp [bne_iff_ne]
          exact hne
        have hemem : e ∈ cache := hperm.mem_iff.mp (List.mem_cons_self e rest)
        have hxe : x = e := eq_of_mem_nodup_keys (fun o => o.url) cache hnd hx hemem hxurl
        have hyf : y ∈ cache.filter (fun o => o.url != e.url) := evictLoop_subset _ _ _ _ hy
        have hyrest : y ∈ rest := hperm'.mem_iff.mpr hyf
        rw [hxe]
        exact List.rel_of_pairwise_cons hpair hyrest

/-- Inserting an image keeps urls pairwise distinct. -/
theorem nodup_insertImage (cache : List CacheService.ImageCacheEntry)
    (entry : CacheService.ImageCacheEntry)
    (h : (cache.map (fun e => e.url)).Nodup) :
    ((CacheService.insertImage cache entry).map (fun e => e.url)).Nodup := by
  unfold CacheService.insertImage
  by_cases hany : cache.any (fun o => o.url == entry.url) = true
  · rw [if_pos hany]
    have hmaps : (cache.map (fun o => if o.url == entry.url then entry else o)).map
          (fun e => e.url)
        = cache.map (fun e => e.url) := by
      rw [List.map_map]
      apply List.map_congr_left
      intro o _
      simp only [Function.comp_apply]
      by_cases ho : (o.url == entry.url) = true
      · rw [if_pos ho]
        exact (beq_iff_eq.mp ho).symm
      · rw [if_neg ho]
    rw [hmaps]
    exact h
  · rw [if_neg hany]
    rw [List.map_append, List.nodup_append]
    refine ⟨h, List.nodup_singleton _, ?_⟩
    intro x hx
    simp only [List.map_cons, List.map_nil, List.mem_singleton]
    intro hxe
    have hany2 : cache.any (fun o => o.url == entry.url) = false := by
      revert hany
      cases cache.any (fun o => o.url == entry.url) <;> simp
    rw [hxe] at hx
    obtain ⟨o, ho, hou⟩ := List.mem_map.mp hx
    have := List.any_eq_false.mp hany2 o ho
    simp only [beq_iff_eq] at this
    exact this hou

/-- Claim C6 [confirmed]: after every actual image insertion (cacheImage on
a non-blob, not-yet-cached url with a successful fetch), the aggregate size
of the image cache is at most the 50MB byte budget and the entry count is
at most 100; when a budget was violated, eviction removed oldest entries
first (every evicted entry is no younger than every kept entry). -/
theorem C6_blob_budget (now : Nat) (url : String) (blobSize : Nat)
    (cache : List CacheService.ImageCacheEntry)
    (hnodup : (cache.map (fun e => e.url)).Nodup)
    (hblob : CacheService.isBlobUrl url = false)
    (hnew : CacheService.getCachedImageBlobEntry now cache url = none) :
    CacheService.totalSize (CacheService.cacheImage now url blobSize true cache)
        ≤ CacheService.IMAGES_CONFIG_maxSize ∧
      (CacheService.cacheImage now url blobSize true cache).length
        ≤ CacheService.IMAGES_CONFIG_maxEntries ∧
      (∀ x ∈ CacheService.insertImage cache ⟨url, now, blobSize⟩,
        x ∉ CacheService.cacheImage now url blobSize true cache →
        ∀ y ∈ CacheService.cacheImage now url blobSize true cache,
          x.timestamp ≤ y.timestamp) := by
  have hci : CacheService.cacheImage now url blobSize true cache
      = CacheService.limitImageCacheSize
          (CacheService.insertImage cache ⟨url, now, blobSize⟩) := by
    simp [CacheService.cacheImage, hblob, hnew]
  have hfnodup := nodup_insertImage cache ⟨url, now, blobSize⟩ hnodup
  rw [hci]
  unfold CacheService.limitImageCacheSize
  by_cases hcond : CacheService.IMAGES_CONFIG_maxSize
        < CacheService.totalSize (CacheService.insertImage cache ⟨url, now, blobSize⟩) ∨
      CacheService.IMAGES_CONFIG_maxEntries
        < (CacheService.insertImage cache ⟨url, now, blobSize⟩).length
  · rw [if_pos hcond]
    have hb := evictLoop_bounds
      (CacheService.sortByTs (fun e => e.timestamp)
        (CacheService.insertImage cache ⟨url, now, blobSize⟩))
      (CacheService.insertImage cache ⟨url, now, blobSize⟩) _ _
      (sortByTs_perm _ _) hfnodup rfl rfl
    refine ⟨hb.1, hb.2, ?_⟩
    intro x hx hnx y hy
    exact evictLoop_oldest _ _ _ _ (sortByTs_perm _ _) hfnodup
      (sortByTs_sorted (fun e : CacheService.ImageCacheEntry => e.timestamp) _)
      x hx hnx y hy
  · rw [if_neg hcond]
    push_neg at hcond
    refine ⟨hcond.1, hcond.2, ?_⟩
    intro x hx hnx
    exact absurd hx hnx

/-- Witness for C6_blob_budget on a concrete insertion. -/
theorem C6_witness :
    (([] : List CacheService.ImageCacheEntry).map (fun e => e.url)).Nodup ∧
    CacheService.isBlobUrl urlU = false ∧
    CacheService.getCachedImageBlobEntry 5 [] urlU = none ∧
    CacheService.totalSize (CacheService.cacheImage 5 urlU 10 true [])
      ≤ CacheService.IMAGES_CONFIG_maxSize ∧
    (CacheService.cacheImage 5 urlU 10 true []).length
      ≤ CacheService.IMAGES_CONFIG_maxEntries := by
  have h := C6_blob_budget 5 urlU 10 [] (by simp) rfl rfl
  exact ⟨by simp, rfl, rfl, h.1, h.2.1⟩

/-- Witness for C7_single_oldest_eviction on a tiny namespace bounded to
one entry. -/
theorem C7_witness :
    ((witnessCacheC7.map (fun kv => kv.1)).Nodup) ∧
    (keyQ ∉ witnessCacheC7.map (fun kv => kv.1)) ∧
    witnessCacheC7.length = 1 ∧
    (∃ m, m ∈ CacheService.insertKey witnessCacheC7 keyQ 3 ∧
      (∀ kv ∈ CacheService.insertKey witnessCacheC7 keyQ 3, m.2 ≤ kv.2) ∧
      CacheService.limitCacheSize (fun b => b)
          (CacheService.insertKey witnessCacheC7 keyQ 3) 1
        = (CacheService.insertKey witnessCacheC7 keyQ 3).filter
            (fun kv => kv.1 != m.1) ∧
      (CacheService.limitCacheSize (fun b => b)
          (CacheService.insertKey witnessCacheC7 keyQ 3) 1).length = 1) :=
  ⟨by decide, by decide, rfl,
    C7_single_oldest_eviction (fun b => b) 1 witnessCacheC7 keyQ 3
      (by decide) (by decide) rfl⟩

end AlertaIlo
